import Mathlib

/-!
Shallow embedding of the Team Roll Draft engine
(`sql/team_roll_draft.sql`, functions `tr_create_run`, `tr_roll_team`,
`tr_choose_slot`, `tr_clear_pending_slot`, `tr_pick_asset`).

Modelling choices:
* uuid columns become `Nat`, bigint columns become `Int`, text columns
  become `String`; a nullable column becomes an `Option`.
* The engine only ever touches the rows belonging to one run id
  (`where run_id = p_run_id` / `where id = p_run_id` on every statement),
  so a database is projected onto a single run: `Db.run` is the
  `game_runs` row with that id (if any), `Db.state` the `game_state` row,
  `Db.picks` the list of `game_picks` rows, while `teams`, `coaches` and
  `roster` (`nflverse_roster_2025`, restricted to the columns the engine
  reads) are the global read-only reference tables.
* Every plpgsql function runs as one transaction and every `raise
  exception` aborts it wholesale (none of the five functions has an
  exception handler around its mutations), so an operation is a total
  function `... → Except Err Db`: on `.error` the database is unchanged.
* `order by random() limit 1` is modelled by an extra `Nat` parameter `r`
  choosing the element at index `r % length` of the eligible list: any
  index can be chosen, none iff the eligible list is empty.
* In SQL, `null <> s` is unknown, so an `if v <> s then raise` guard does
  not fire when `v` is null; where a `select ... into` can leave a
  variable null (missing `game_state` row) the translation follows that
  three-valued behaviour, noted at each spot.
-/

namespace TeamRollDraft

/-- A row of `public.teams` (columns read by the engine). -/
structure TeamRow where
  id : Nat
  abbr : String
  name : String
  logo_url : Option String
deriving DecidableEq, Repr

/-- A row of `public.coaches`. -/
structure CoachRow where
  id : Nat
  team_id : Nat
  full_name : String
deriving DecidableEq, Repr

/-- A row of `public.nflverse_roster_2025`, restricted to the columns the
engine reads (`id`, `season`, `team`, `position`). -/
structure RosterRow where
  id : Int
  season : Int
  team : String
  position : String
deriving DecidableEq, Repr

/-- The `public.game_runs` row of the run under consideration
(`id` is implicit, it is the projection key). -/
structure GameRun where
  user_id : Nat
  season : Int
  status : String
deriving DecidableEq, Repr

/-- The `public.game_state` row of the run. -/
structure GameState where
  phase : String
  current_team_id : Option Nat
  pending_slot : Option String
deriving DecidableEq, Repr

/-- A `public.game_picks` row of the run. -/
structure GamePick where
  slot : String
  team_id : Nat
  asset_type : String
  player_id : Option Int
  coach_id : Option Nat
deriving DecidableEq, Repr

/-- The database, projected onto one run id (see the header comment). -/
structure Db where
  teams : List TeamRow
  coaches : List CoachRow
  roster : List RosterRow
  run : Option GameRun
  state : Option GameState
  picks : List GamePick
deriving DecidableEq, Repr

/-- One constructor per distinct `raise exception` site of
`sql/team_roll_draft.sql` (the German message is quoted at each). -/
inductive Err where
  | notAuthenticated        -- "Nicht authentifiziert."
  | duplicateRun            -- "Du hast für diese Season bereits einen Run."
  | runNotFound             -- "Run nicht gefunden."
  | stateNotFound           -- "State nicht gefunden." (tr_roll_team)
  | cannotRollNow           -- "Du kannst aktuell kein Team rollen."
  | noTeamsRemaining        -- "Keine Teams mehr verfügbar."
  | invalidSlot             -- "Ungültiger Slot."
  | slotChoiceNotAllowed    -- "Slot-Auswahl aktuell nicht erlaubt."
  | rollTeamFirst           -- "Bitte zuerst ein Team rollen."
  | slotAlreadyFilled       -- "Dieser Slot ist bereits belegt."
  | noCurrentTeam           -- "Kein aktuelles Team vorhanden."
  | changeSlotNotAllowed    -- "Position wechseln aktuell nicht möglich."
  | assetChoiceNotAllowed   -- "Asset-Auswahl aktuell nicht erlaubt."
  | incompleteState         -- "Unvollständiger State."
  | pickSlotAlreadyFilled   -- "Slot bereits belegt."
  | teamAlreadyUsed         -- "Team wurde in diesem Run bereits verwendet."
  | teamNotFound            -- "Team nicht gefunden."
  | dstRequiresNoId         -- "Für DST ist nur DST ohne Asset-ID erlaubt."
  | coachRequired           -- "Für COACH muss ein Coach gewählt werden."
  | castBigintToUuid        -- `p_asset_id::uuid`: no bigint→uuid cast exists
  | playerRequired          -- "Für diesen Slot muss ein Spieler gewählt werden."
  | assetTeamMismatchCoach  -- "Coach passt nicht zum gerollten Team."
  | assetTeamMismatchPlayer -- "Spieler passt nicht zum gerollten Team (oder falsche Season)."
  | positionMismatchRB      -- "Slot erwartet einen RB."
  | positionMismatchWR      -- "Slot erwartet einen WR."
  | positionMismatchQB      -- "Slot erwartet einen QB."
  | positionMismatchTE      -- "Slot erwartet einen TE."
deriving DecidableEq, Repr

/-- The spec's §7 error taxonomy ("kinds, not source exception types"):
each concrete exception mapped to the abstract kind the spec files it
under.  §4.1 "clear pending slot / Errors: InvalidPhase (no current team /
already need_roll or complete)" classifies the no-current-team failures as
`InvalidPhase`, hence `noCurrentTeam` and `rollTeamFirst` map there. -/
def errKind : Err → String
  | .notAuthenticated => "NotAuthenticated"
  | .duplicateRun => "DuplicateRun"
  | .runNotFound => "NotFound"
  | .stateNotFound => "NotFound"
  | .cannotRollNow => "InvalidPhase"
  | .noTeamsRemaining => "NoTeamsRemaining"
  | .invalidSlot => "InvalidSlot"
  | .slotChoiceNotAllowed => "InvalidPhase"
  | .rollTeamFirst => "InvalidPhase"
  | .slotAlreadyFilled => "SlotAlreadyFilled"
  | .noCurrentTeam => "InvalidPhase"
  | .changeSlotNotAllowed => "InvalidPhase"
  | .assetChoiceNotAllowed => "InvalidPhase"
  | .incompleteState => "IncompleteState"
  | .pickSlotAlreadyFilled => "SlotAlreadyFilled"
  | .teamAlreadyUsed => "TeamAlreadyUsed"
  | .teamNotFound => "NotFound"
  | .dstRequiresNoId => "InvalidAssetForSlot"
  | .coachRequired => "InvalidAssetForSlot"
  | .castBigintToUuid => "CastError"
  | .playerRequired => "InvalidAssetForSlot"
  | .assetTeamMismatchCoach => "AssetTeamMismatch"
  | .assetTeamMismatchPlayer => "AssetTeamMismatch"
  | .positionMismatchRB => "AssetPositionMismatch"
  | .positionMismatchWR => "AssetPositionMismatch"
  | .positionMismatchQB => "AssetPositionMismatch"
  | .positionMismatchTE => "AssetPositionMismatch"

/-- The closed slot vocabulary (check constraints on `game_state.pending_slot`
and `game_picks.slot`, and the guard in `tr_choose_slot`). -/
def slotVocab : List String := ["QB", "RB1", "RB2", "WR1", "WR2", "TE", "DST", "COACH"]

/-- Translation of `exists (select 1 from game_picks gp where
gp.run_id = p_run_id and gp.team_id = t)`. -/
def teamUsed (db : Db) (t : Nat) : Bool :=
  db.picks.any fun p => p.team_id == t

/-- Translation of `exists (select 1 from game_picks gp where
gp.run_id = p_run_id and gp.slot = s)`. -/
def slotFilled (db : Db) (s : String) : Bool :=
  db.picks.any fun p => p.slot == s

/-- Translation of `tr_create_run` (lines 201–225).  The new run id is freshly generated
(`gen_random_uuid()`), so in the projection onto that id no state row or
pick can pre-exist; the reference tables are passed through.  The
`unique (user_id, season)` violation (`DuplicateRun`) concerns other run
ids of the same user and is outside this single-run projection. -/
def tr_create_run (uid : Option Nat) (p_season : Int)
    (teams : List TeamRow) (coaches : List CoachRow) (roster : List RosterRow) :
    Except Err Db :=
  match uid with
  | none => .error .notAuthenticated
  | some u =>
      .ok { teams := teams, coaches := coaches, roster := roster,
            run := some { user_id := u, season := p_season, status := "active" },
            state := some { phase := "need_roll", current_team_id := none,
                            pending_slot := none },
            picks := [] }

/-- Translation of `tr_roll_team` (lines 228–285).  The final
`select t.id, t.abbr, t.name, t.logo_url from teams t where t.id = v_team_id`
returns the selected row itself (`teams.id` is the primary key). -/
def tr_roll_team (uid : Option Nat) (r : Nat) (db : Db) :
    Except Err (Db × TeamRow) :=
  match uid with
  | none => .error .notAuthenticated
  | some u =>
    match db.run with
    | none => .error .runNotFound
    | some run =>
      if run.user_id ≠ u then .error .runNotFound
      else
        match db.state with
        | none => .error .stateNotFound
        | some st =>
          if st.phase ≠ "need_roll" then .error .cannotRollNow
          else
            let eligible := db.teams.filter fun t => ! teamUsed db t.id
            match eligible[r % eligible.length]? with
            | none => .error .noTeamsRemaining
            | some t =>
                .ok ({ db with state := some { phase := "need_slot",
                                               current_team_id := some t.id,
                                               pending_slot := none } }, t)

/-- Translation of `tr_choose_slot` (lines 288–333).  When the `game_state` row is
missing, `select ... into` leaves `v_phase`/`v_current_team` null; the
guard `v_phase <> 'need_slot'` does not fire on null, so the
`v_current_team is null` check raises — hence the `none` branch. -/
def tr_choose_slot (uid : Option Nat) (p_slot : String) (db : Db) :
    Except Err Db :=
  match uid with
  | none => .error .notAuthenticated
  | some u =>
    if p_slot ∉ slotVocab then .error .invalidSlot
    else
      match db.run with
      | none => .error .runNotFound
      | some run =>
        if run.user_id ≠ u then .error .runNotFound
        else
          match db.state with
          | none => .error .rollTeamFirst
          | some st =>
            if st.phase ≠ "need_slot" then .error .slotChoiceNotAllowed
            else if st.current_team_id = none then .error .rollTeamFirst
            else if slotFilled db p_slot then .error .slotAlreadyFilled
            else
              .ok { db with state := some { st with phase := "need_asset", pending_slot := some p_slot } }

/-- Translation of `tr_clear_pending_slot` (lines 336–373).  A missing `game_state` row
leaves `v_current_team` null, so the first check raises; the phase guard
`v_phase not in (...)` would not fire on a null `v_phase` anyway. -/
def tr_clear_pending_slot (uid : Option Nat) (db : Db) : Except Err Db :=
  match uid with
  | none => .error .notAuthenticated
  | some u =>
    match db.run with
    | none => .error .runNotFound
    | some run =>
      if run.user_id ≠ u then .error .runNotFound
      else
        match db.state with
        | none => .error .noCurrentTeam
        | some st =>
          if st.current_team_id = none then .error .noCurrentTeam
          else if ¬ (st.phase = "need_slot" ∨ st.phase = "need_asset") then
            .error .changeSlotNotAllowed
          else
            .ok { db with state := some { st with phase := "need_slot", pending_slot := none } }

/-- Lines 492–512 of `tr_pick_asset`: after the insert, count the run's
picks; at 8 or more seal the run (`game_runs.status = 'complete'`, phase
`complete`, cursor cleared), otherwise reset to `need_roll` with the
cursor cleared. -/
def pickEpilogue (db : Db) (p : GamePick) : Db :=
  let picks' := db.picks ++ [p]
  if picks'.length ≥ 8 then
    { db with picks := picks',
              run := db.run.map fun rn => { rn with status := "complete" },
              state := db.state.map fun st =>
                { st with phase := "complete", current_team_id := none,
                          pending_slot := none } }
  else
    { db with picks := picks',
              state := db.state.map fun st =>
                { st with phase := "need_roll", current_team_id := none,
                          pending_slot := none } }

/-- Translation of `tr_pick_asset` (lines 378–514).  A missing `game_state` row leaves
`v_phase` null so the phase guard does not fire, and the
`v_pending_slot is null or v_current_team is null` check raises
(`incompleteState`) — hence the `none` branch.  In the COACH branch the
source compares `c.id = p_asset_id::uuid` (and would insert
`p_asset_id::uuid`): `p_asset_id` is bigint and Postgres defines no cast
from bigint to uuid, so executing that statement always raises
`42846 cannot cast type bigint to uuid`; the branch therefore ends in
`.error .castBigintToUuid` once its own guard has passed, and the insert
after it is dead code. -/
def tr_pick_asset (uid : Option Nat) (p_asset_type : String)
    (p_asset_id : Option Int) (db : Db) : Except Err Db :=
  match uid with
  | none => .error .notAuthenticated
  | some u =>
    match db.run with
    | none => .error .runNotFound
    | some run =>
      if run.user_id ≠ u then .error .runNotFound
      else
        match db.state with
        | none => .error .incompleteState
        | some st =>
          if st.phase ≠ "need_asset" then .error .assetChoiceNotAllowed
          else
            match st.pending_slot, st.current_team_id with
            | some pending, some current =>
              if slotFilled db pending then .error .pickSlotAlreadyFilled
              else if teamUsed db current then .error .teamAlreadyUsed
              else
                match (db.teams.find? fun t => t.id == current).map (·.abbr) with
                | none => .error .teamNotFound
                | some abbr =>
                  if pending = "DST" then
                    if p_asset_type ≠ "dst" ∨ p_asset_id ≠ none then
                      .error .dstRequiresNoId
                    else
                      .ok (pickEpilogue db
                        { slot := pending, team_id := current,
                          asset_type := "dst", player_id := none, coach_id := none })
                  else if pending = "COACH" then
                    if p_asset_type ≠ "coach" ∨ p_asset_id = none then
                      .error .coachRequired
                    else
                      .error .castBigintToUuid
                  else
                    if p_asset_type ≠ "player" ∨ p_asset_id = none then
                      .error .playerRequired
                    else
                      match p_asset_id with
                      | none => .error .playerRequired
                      | some pid =>
                        match (db.roster.find? fun rr =>
                            rr.id == pid && rr.team == abbr
                              && rr.season == run.season).map (·.position) with
                        | none => .error .assetTeamMismatchPlayer
                        | some pos =>
                          if (pending = "RB1" ∨ pending = "RB2") ∧ pos ≠ "RB" then
                            .error .positionMismatchRB
                          else if (pending = "WR1" ∨ pending = "WR2") ∧ pos ≠ "WR" then
                            .error .positionMismatchWR
                          else if pending = "QB" ∧ pos ≠ "QB" then
                            .error .positionMismatchQB
                          else if pending = "TE" ∧ pos ≠ "TE" then
                            .error .positionMismatchTE
                          else
                            .ok (pickEpilogue db
                              { slot := pending, team_id := current,
                                asset_type := "player", player_id := some pid,
                                coach_id := none })
            | _, _ => .error .incompleteState

/-! Concrete reference data and a concrete run, used to instantiate the
theorems below on closed inputs. -/

/-- Two teams of the reference table. -/
def teams0 : List TeamRow :=
  [{ id := 1, abbr := "KC", name := "Kansas City Chiefs", logo_url := none },
   { id := 2, abbr := "BUF", name := "Buffalo Bills", logo_url := none }]

/-- One head coach per team. -/
def coaches0 : List CoachRow :=
  [{ id := 21, team_id := 1, full_name := "Head Coach KC" },
   { id := 22, team_id := 2, full_name := "Head Coach BUF" }]

/-- A small season-2025 roster. -/
def roster0 : List RosterRow :=
  [{ id := 10, season := 2025, team := "KC", position := "QB" },
   { id := 11, season := 2025, team := "KC", position := "WR" },
   { id := 12, season := 2025, team := "BUF", position := "QB" }]

/-- The run of user 7, season 2025, right after `tr_create_run`. -/
def dbA : Db :=
  { teams := teams0, coaches := coaches0, roster := roster0,
    run := some { user_id := 7, season := 2025, status := "active" },
    state := some { phase := "need_roll", current_team_id := none, pending_slot := none },
    picks := [] }

/-- State of `dbA` after rolling team 1 (KC). -/
def dbB : Db :=
  { dbA with state := some { phase := "need_slot", current_team_id := some 1, pending_slot := none } }

/-- State of `dbB` after choosing slot QB. -/
def dbC : Db :=
  { dbA with state := some { phase := "need_asset", current_team_id := some 1, pending_slot := some "QB" } }

/-- State of `dbC` after picking KC player 10 for QB: one pick, back to `need_roll`. -/
def dbD : Db :=
  { dbA with
    state := some { phase := "need_roll", current_team_id := none, pending_slot := none },
    picks := [{ slot := "QB", team_id := 1, asset_type := "player",
                player_id := some 10, coach_id := none }] }

/-- The six slots filled by a player pick. -/
def playerSlots : List String := ["QB", "RB1", "RB2", "WR1", "WR2", "TE"]

/-- A slot's required player position: the ordinal suffix is stripped
(RB1/RB2 → RB, WR1/WR2 → WR), QB and TE are their own requirement. -/
def slotRequiredPos (s : String) : String :=
  if s = "RB1" ∨ s = "RB2" then "RB"
  else if s = "WR1" ∨ s = "WR2" then "WR"
  else s

/-- The database an engine call leaves behind: its result on success; on
failure the enclosing transaction aborted, so the pre-call database (the
five plpgsql functions have no exception handler around their writes,
hence every raised exception rolls the whole call back). -/
def resultDb (r : Except Err Db) (db : Db) : Db :=
  match r with
  | .ok db' => db'
  | .error _ => db

/-! Reachability: the run databases the engine can actually produce. -/

/-- One successful engine call on an existing run. -/
inductive Step : Db → Db → Prop where
  | roll (uid : Option Nat) (r : Nat) (db db' : Db) (t : TeamRow) :
      tr_roll_team uid r db = .ok (db', t) → Step db db'
  | choose (uid : Option Nat) (s : String) (db db' : Db) :
      tr_choose_slot uid s db = .ok db' → Step db db'
  | clear (uid : Option Nat) (db db' : Db) :
      tr_clear_pending_slot uid db = .ok db' → Step db db'
  | pick (uid : Option Nat) (ty : String) (aid : Option Int) (db db' : Db) :
      tr_pick_asset uid ty aid db = .ok db' → Step db db'

/-- Run databases reachable from a successful `tr_create_run` by
successful engine calls. -/
inductive Reach : Db → Prop where
  | created (uid : Option Nat) (season : Int) (teams : List TeamRow)
      (coaches : List CoachRow) (roster : List RosterRow) (db : Db) :
      tr_create_run uid season teams coaches roster = .ok db → Reach db
  | step (db db' : Db) : Reach db → Step db db' → Reach db'

/-- The inductive invariant of a reachable run database: the run and
state rows exist, the pick count never exceeds 8, phase `complete`,
status `complete` and pick count 8 coincide, and the phase determines
which cursor fields are null. -/
def Inv (db : Db) : Prop :=
  ∃ run st, db.run = some run ∧ db.state = some st ∧
    db.picks.length ≤ 8 ∧
    (st.phase = "complete" ↔ db.picks.length = 8) ∧
    (run.status = "complete" ↔ db.picks.length = 8) ∧
    ((st.phase = "need_roll" ∨ st.phase = "complete") →
       st.current_team_id = none ∧ st.pending_slot = none) ∧
    (st.phase = "need_slot" → st.current_team_id ≠ none ∧ st.pending_slot = none) ∧
    (st.phase = "need_asset" → st.current_team_id ≠ none ∧ st.pending_slot ≠ none)

/-- A database in which the run id does not exist at all. -/
def dbNoRun : Db :=
  { teams := teams0, coaches := coaches0, roster := roster0,
    run := none, state := none, picks := [] }

/-- A run in phase `need_roll` in which every team already carries a pick. -/
def dbAllUsed : Db :=
  { dbA with
    picks := [{ slot := "QB", team_id := 1, asset_type := "player", player_id := some 10, coach_id := none },
              { slot := "RB1", team_id := 2, asset_type := "player", player_id := some 12, coach_id := none }] }

/-- A run in phase `need_slot` (team 2 rolled) whose QB slot already
carries a pick. -/
def dbE : Db :=
  { dbA with
    state := some { phase := "need_slot", current_team_id := some 2, pending_slot := none },
    picks := [{ slot := "QB", team_id := 1, asset_type := "player", player_id := some 10, coach_id := none }] }

/-- A run in phase `need_asset` with pending slot DST and team 1. -/
def dbDST : Db :=
  { dbA with state := some { phase := "need_asset", current_team_id := some 1, pending_slot := some "DST" } }

/-- A run in phase `need_asset` with pending slot COACH and team 1. -/
def dbCoach : Db :=
  { dbA with state := some { phase := "need_asset", current_team_id := some 1, pending_slot := some "COACH" } }

/-- A run in phase `need_asset` with pending slot RB1 and team 1. -/
def dbRB1 : Db :=
  { dbA with state := some { phase := "need_asset", current_team_id := some 1, pending_slot := some "RB1" } }

example : tr_create_run (some 7) 2025 teams0 coaches0 roster0 = .ok dbA := rfl

example :
    tr_roll_team (some 7) 0 dbA =
      .ok (dbB, { id := 1, abbr := "KC", name := "Kansas City Chiefs", logo_url := none }) := rfl

example : tr_choose_slot (some 7) "QB" dbB = .ok dbC := rfl

example : tr_pick_asset (some 7) "player" (some 10) dbC = .ok dbD := rfl

/-! Inversion lemmas: a successful call determines the checks it passed
and the shape of the database it produced. -/

/-- Characterisation of a successful `tr_roll_team`. -/
theorem tr_roll_team_ok {uid : Option Nat} {r : Nat} {db db' : Db} {t : TeamRow}
    (h : tr_roll_team uid r db = .ok (db', t)) :
    ∃ u run st, uid = some u ∧ db.run = some run ∧ run.user_id = u ∧
      db.state = some st ∧ st.phase = "need_roll" ∧
      t ∈ db.teams ∧ teamUsed db t.id = false ∧
      db' = { db with state := some { phase := "need_slot",
                                      current_team_id := some t.id,
                                      pending_slot := none } } := by
  unfold tr_roll_team at h
  split at h
  · exact absurd h (by simp)
  next u =>
    split at h
    · exact absurd h (by simp)
    next rn hrn =>
      split at h
      · exact absurd h (by simp)
      · split at h
        · exact absurd h (by simp)
        next st hst =>
          split at h
          · exact absurd h (by simp)
          · simp only [] at h
            split at h
            · exact absurd h (by simp)
            next t' hget =>
              simp only [Except.ok.injEq, Prod.mk.injEq] at h
              obtain ⟨hdb, ht⟩ := h
              subst ht
              subst hdb
              refine ⟨u, rn, st, rfl, ?_⟩
              have hmem := List.getElem?_mem hget
              rw [List.mem_filter] at hmem
              simp_all

/-- Characterisation of a successful `tr_choose_slot`. -/
theorem tr_choose_slot_ok {uid : Option Nat} {p_slot : String} {db db' : Db}
    (h : tr_choose_slot uid p_slot db = .ok db') :
    ∃ u run st, uid = some u ∧ db.run = some run ∧ run.user_id = u ∧
      db.state = some st ∧ p_slot ∈ slotVocab ∧ st.phase = "need_slot" ∧
      st.current_team_id ≠ none ∧ slotFilled db p_slot = false ∧
      db' = { db with state := some { st with phase := "need_asset", pending_slot := some p_slot } } := by
  unfold tr_choose_slot at h
  split at h
  · exact absurd h (by simp)
  next u =>
    split at h
    · exact absurd h (by simp)
    next hvocab =>
      split at h
      · exact absurd h (by simp)
      next rn hrn =>
        split at h
        · exact absurd h (by simp)
        next hu =>
          split at h
          · exact absurd h (by simp)
          next st hst =>
            split at h
            · exact absurd h (by simp)
            next hphase =>
              split at h
              · exact absurd h (by simp)
              next hcur =>
                split at h
                · exact absurd h (by simp)
                next hfill =>
                  simp only [Except.ok.injEq] at h
                  subst h
                  exact ⟨u, rn, st, rfl, hrn, not_not.mp hu, hst, not_not.mp hvocab,
                    not_not.mp hphase, hcur, by simpa using hfill, rfl⟩

/-- Characterisation of a successful `tr_clear_pending_slot`. -/
theorem tr_clear_pending_slot_ok {uid : Option Nat} {db db' : Db}
    (h : tr_clear_pending_slot uid db = .ok db') :
    ∃ u run st, uid = some u ∧ db.run = some run ∧ run.user_id = u ∧
      db.state = some st ∧ st.current_team_id ≠ none ∧
      (st.phase = "need_slot" ∨ st.phase = "need_asset") ∧
      db' = { db with state := some { st with phase := "need_slot", pending_slot := none } } := by
  unfold tr_clear_pending_slot at h
  split at h
  · exact absurd h (by simp)
  next u =>
    split at h
    · exact absurd h (by simp)
    next rn hrn =>
      split at h
      · exact absurd h (by simp)
      next hu =>
        split at h
        · exact absurd h (by simp)
        next st hst =>
          split at h
          · exact absurd h (by simp)
          next hcur =>
            split at h
            · exact absurd h (by simp)
            next hphase =>
              simp only [Except.ok.injEq] at h
              subst h
              exact ⟨u, rn, st, rfl, hrn, not_not.mp hu, hst, hcur,
                not_not.mp hphase, rfl⟩

/-- The epilogue appends exactly the inserted row. -/
theorem pickEpilogue_picks (db : Db) (p : GamePick) :
    (pickEpilogue db p).picks = db.picks ++ [p] := by
  unfold pickEpilogue
  simp only []
  split <;> rfl

/-- The epilogue never touches the reference tables. -/
theorem pickEpilogue_ref (db : Db) (p : GamePick) :
    (pickEpilogue db p).teams = db.teams ∧ (pickEpilogue db p).coaches = db.coaches ∧
      (pickEpilogue db p).roster = db.roster := by
  unfold pickEpilogue
  simp only []
  split <;> exact ⟨rfl, rfl, rfl⟩

/-- The sealing branch of the epilogue (count reached 8). -/
theorem pickEpilogue_complete (db : Db) (p : GamePick)
    (h : db.picks.length + 1 ≥ 8) :
    (pickEpilogue db p).run = db.run.map (fun rn => { rn with status := "complete" }) ∧
      (pickEpilogue db p).state = db.state.map (fun st =>
        { st with phase := "complete", current_team_id := none, pending_slot := none }) := by
  unfold pickEpilogue
  simp only []
  rw [if_pos (by simpa using h)]
  exact ⟨rfl, rfl⟩

/-- The cycling branch of the epilogue (count still below 8). -/
theorem pickEpilogue_cycle (db : Db) (p : GamePick)
    (h : db.picks.length + 1 < 8) :
    (pickEpilogue db p).run = db.run ∧
      (pickEpilogue db p).state = db.state.map (fun st =>
        { st with phase := "need_roll", current_team_id := none, pending_slot := none }) := by
  unfold pickEpilogue
  simp only []
  rw [if_neg (by simp only [List.length_append, List.length_cons, List.length_nil] ; omega)]
  exact ⟨rfl, rfl⟩

set_option maxHeartbeats 2000000 in
/-- Characterisation of a successful `tr_pick_asset`: every guard passed
and the result is the epilogue applied to a pick bound to the pending slot
and the current team. -/
theorem tr_pick_asset_ok {uid : Option Nat} {ty : String} {aid : Option Int}
    {db db' : Db} (h : tr_pick_asset uid ty aid db = .ok db') :
    ∃ u run st pending current, uid = some u ∧ db.run = some run ∧
      run.user_id = u ∧ db.state = some st ∧ st.phase = "need_asset" ∧
      st.pending_slot = some pending ∧ st.current_team_id = some current ∧
      slotFilled db pending = false ∧ teamUsed db current = false ∧
      ∃ p : GamePick, p.slot = pending ∧ p.team_id = current ∧
        db' = pickEpilogue db p := by
  unfold tr_pick_asset at h
  split at h
  · exact absurd h (by simp)
  next u =>
    split at h
    · exact absurd h (by simp)
    next rn hrn =>
      split at h
      · exact absurd h (by simp)
      next hu =>
        split at h
        · exact absurd h (by simp)
        next st hst =>
          split at h
          · exact absurd h (by simp)
          next hphase =>
            split at h
            next pending current hpc1 hpc2 =>
              split at h
              · exact absurd h (by simp)
              next hfill =>
                split at h
                · exact absurd h (by simp)
                next hused =>
                  split at h
                  · exact absurd h (by simp)
                  next abbr habbr =>
                    split at h
                    next hdst =>
                      split at h
                      · exact absurd h (by simp)
                      next =>
                        simp only [Except.ok.injEq] at h
                        subst h
                        exact ⟨u, rn, st, pending, current, rfl, hrn, not_not.mp hu,
                          hst, not_not.mp hphase, hpc1, hpc2,
                          by simpa using hfill, by simpa using hused,
                          _, rfl, rfl, rfl⟩
                    next =>
                      split at h
                      next =>
                        split at h <;> exact absurd h (by simp)
                      next =>
                        split at h
                        · exact absurd h (by simp)
                        next =>
                          split at h
                          · exact absurd h (by simp)
                          next pid =>
                            split at h
                            · exact absurd h (by simp)
                            next pos hpos =>
                              split at h
                              · exact absurd h (by simp)
                              next =>
                                split at h
                                · exact absurd h (by simp)
                                next =>
                                  split at h
                                  · exact absurd h (by simp)
                                  next =>
                                    split at h
                                    · exact absurd h (by simp)
                                    next =>
                                      simp only [Except.ok.injEq] at h
                                      subst h
                                      exact ⟨u, rn, st, pending, current, rfl, hrn,
                                        not_not.mp hu, hst, not_not.mp hphase,
                                        hpc1, hpc2, by simpa using hfill,
                                        by simpa using hused, _, rfl, rfl, rfl⟩
            next hpc =>
              exact absurd h (by simp)


/-- Creating a run establishes the invariant. -/
theorem inv_create {uid : Option Nat} {season : Int} {teams : List TeamRow}
    {coaches : List CoachRow} {roster : List RosterRow} {db : Db}
    (h : tr_create_run uid season teams coaches roster = .ok db) : Inv db := by
  unfold tr_create_run at h
  split at h
  · exact absurd h (by simp)
  · simp only [Except.ok.injEq] at h
    subst h
    exact ⟨_, _, rfl, rfl, by simp, by simp, by simp, by simp, by simp, by simp⟩

/-- Every successful engine call preserves the invariant. -/
theorem inv_step {db db' : Db} (hinv : Inv db) (hstep : Step db db') : Inv db' := by
  obtain ⟨run, st, hrun, hst, hlen, hph, hstat, hnr, hns, hna⟩ := hinv
  cases hstep with
  | roll uid r _ _ t h =>
      obtain ⟨u, run1, st1, _, hrun1, _, hst1, hphase, _, _, hdb'⟩ := tr_roll_team_ok h
      rw [hrun] at hrun1
      rw [hst] at hst1
      cases hrun1
      cases hst1
      subst hdb'
      have hne : db.picks.length ≠ 8 := fun hc => by
        have := hph.mpr hc
        rw [this] at hphase
        exact absurd hphase (by decide)
      exact ⟨run, _, hrun, rfl, hlen, by simpa using hne, by simpa [hne] using hstat,
        by simp, by simp, by simp⟩
  | choose uid s _ _ h =>
      obtain ⟨u, run1, st1, _, hrun1, _, hst1, _, hphase, hcur, _, hdb'⟩ := tr_choose_slot_ok h
      rw [hrun] at hrun1
      rw [hst] at hst1
      cases hrun1
      cases hst1
      subst hdb'
      have hne : db.picks.length ≠ 8 := fun hc => by
        have := hph.mpr hc
        rw [this] at hphase
        exact absurd hphase (by decide)
      exact ⟨run, _, hrun, rfl, hlen, by simpa using hne, by simpa [hne] using hstat,
        by simp, by simp, by simpa using hcur⟩
  | clear uid _ _ h =>
      obtain ⟨u, run1, st1, _, hrun1, _, hst1, hcur, hphase, hdb'⟩ := tr_clear_pending_slot_ok h
      rw [hrun] at hrun1
      rw [hst] at hst1
      cases hrun1
      cases hst1
      subst hdb'
      have hne : db.picks.length ≠ 8 := fun hc => by
        have := hph.mpr hc
        rcases hphase with h1 | h1 <;> rw [this] at h1 <;> exact absurd h1 (by decide)
      exact ⟨run, _, hrun, rfl, hlen, by simpa using hne, by simpa [hne] using hstat,
        by simp, by simpa using hcur, by simp⟩
  | pick uid ty aid _ _ h =>
      obtain ⟨u, run1, st1, pending, current, _, hrun1, _, hst1, hphase, _, _, _, _,
        p, hp1, hp2, hdb'⟩ := tr_pick_asset_ok h
      rw [hrun] at hrun1
      rw [hst] at hst1
      cases hrun1
      cases hst1
      subst hdb'
      have hne : db.picks.length ≠ 8 := fun hc => by
        have := hph.mpr hc
        rw [this] at hphase
        exact absurd hphase (by decide)
      have hlen7 : db.picks.length ≤ 7 := by omega
      have hlen' : (pickEpilogue db p).picks.length = db.picks.length + 1 := by
        rw [pickEpilogue_picks]; simp
      by_cases hc : db.picks.length + 1 ≥ 8
      · obtain ⟨hrun', hstate'⟩ := pickEpilogue_complete db p hc
        rw [hrun] at hrun'
        rw [hst] at hstate'
        refine ⟨_, _, hrun', hstate', by omega, by simp ; omega, by simp ; omega,
          by simp, by simp, by simp⟩
      · obtain ⟨hrun', hstate'⟩ := pickEpilogue_cycle db p (by omega)
        rw [hrun] at hrun'
        rw [hst] at hstate'
        refine ⟨_, _, hrun', hstate', by omega, by simp ; omega, ?_, by simp, by simp, by simp⟩
        rw [hlen']
        constructor
        · intro hs
          exact absurd (hstat.mp hs) (by omega)
        · intro hx
          exact absurd hx (by omega)

/-- Every reachable run database satisfies the invariant. -/
theorem reach_inv {db : Db} (h : Reach db) : Inv db := by
  induction h with
  | created uid season teams coaches roster db hc => exact inv_create hc
  | step db db' _ hstep ih => exact inv_step ih hstep


/-- Because `nflverse_roster_2025.id` is the primary key, the engine's
`limit 1` lookup finds exactly the row with the given id when one
matches the team and season. -/
theorem roster_find?_eq {db : Db} (hnodup : (db.roster.map (·.id)).Nodup)
    {row : RosterRow} {pid : Int} {abbr : String} {season : Int}
    (hmem : row ∈ db.roster) (hid : row.id = pid) (hteam : row.team = abbr)
    (hseason : row.season = season) :
    (db.roster.find? fun rr => rr.id == pid && rr.team == abbr
        && rr.season == season) = some row := by
  have hsome : (db.roster.find? fun rr => rr.id == pid && rr.team == abbr
      && rr.season == season).isSome := by
    rw [List.find?_isSome]
    exact ⟨row, hmem, by simp [hid, hteam, hseason]⟩
  obtain ⟨row', hrow'⟩ := Option.isSome_iff_exists.mp hsome
  have hpred := List.find?_some hrow'
  have hmem' := List.mem_of_find?_eq_some hrow'
  simp only [Bool.and_eq_true, beq_iff_eq] at hpred
  have : row' = row :=
    List.inj_on_of_nodup_map hnodup hmem' hmem (by rw [hpred.1.1, hid])
  rw [hrow', this]

/-- Evaluation of `tr_pick_asset` once the common guards (authentication,
run ownership, phase `need_asset`, free slot, unused team, team row
found) are fixed: what remains is the slot-directed validation branch. -/
theorem tr_pick_asset_eval (u : Nat) (rn : GameRun) (pending : String)
    (current : Nat) (tm : TeamRow) (db : Db) (ty : String) (aid : Option Int)
    (hrun : db.run = some rn) (huser : rn.user_id = u)
    (hst : db.state = some { phase := "need_asset", current_team_id := some current, pending_slot := some pending })
    (hfill : slotFilled db pending = false) (hused : teamUsed db current = false)
    (htm : db.teams.find? (fun t => t.id == current) = some tm) :
    tr_pick_asset (some u) ty aid db =
      if pending = "DST" then
        if ty ≠ "dst" ∨ aid ≠ none then .error .dstRequiresNoId
        else .ok (pickEpilogue db { slot := pending, team_id := current, asset_type := "dst", player_id := none, coach_id := none })
      else if pending = "COACH" then
        if ty ≠ "coach" ∨ aid = none then .error .coachRequired
        else .error .castBigintToUuid
      else
        if ty ≠ "player" ∨ aid = none then .error .playerRequired
        else
          match aid with
          | none => .error .playerRequired
          | some pid =>
            match (db.roster.find? fun rr => rr.id == pid && rr.team == tm.abbr
                && rr.season == rn.season).map (·.position) with
            | none => .error .assetTeamMismatchPlayer
            | some pos =>
              if (pending = "RB1" ∨ pending = "RB2") ∧ pos ≠ "RB" then .error .positionMismatchRB
              else if (pending = "WR1" ∨ pending = "WR2") ∧ pos ≠ "WR" then .error .positionMismatchWR
              else if pending = "QB" ∧ pos ≠ "QB" then .error .positionMismatchQB
              else if pending = "TE" ∧ pos ≠ "TE" then .error .positionMismatchTE
              else .ok (pickEpilogue db { slot := pending, team_id := current, asset_type := "player", player_id := some pid, coach_id := none }) := by
  unfold tr_pick_asset
  rw [hrun, hst]
  simp [huser, hfill, hused, htm]
  cases aid <;> rfl


/-! The claims. -/

/-- C10: the operation `tr_choose_slot` validates the slot name against the 8-value
vocabulary before checking run existence, ownership or phase, so with an
out-of-vocabulary name it fails with `InvalidSlot` whatever the database
says about the run. -/
theorem choose_slot_checks_vocab_first (u : Nat) (s : String) (db : Db)
    (hs : s ∉ slotVocab) :
    tr_choose_slot (some u) s db = .error .invalidSlot ∧
      errKind .invalidSlot = "InvalidSlot" := by
  refine ⟨?_, rfl⟩
  unfold tr_choose_slot
  simp [hs]

/-- C10 witness: an unknown slot name is rejected with `InvalidSlot` even
in a database where the run does not exist. -/
theorem choose_slot_checks_vocab_first_wit :
    ("XX" ∉ slotVocab ∧ dbNoRun.run = none) ∧
      tr_choose_slot (some 7) "XX" dbNoRun = .error .invalidSlot ∧
      errKind .invalidSlot = "InvalidSlot" :=
  ⟨⟨by decide, rfl⟩, choose_slot_checks_vocab_first 7 "XX" dbNoRun (by decide)⟩

/-- C6: in every reachable run database the state row exists and the phase
determines which cursor fields are non-null: `need_roll`/`complete` clear
both, `need_slot` has only the current team, `need_asset` has both. -/
theorem phase_determines_cursor_nullability {db : Db} (h : Reach db) :
    ∃ st, db.state = some st ∧
      ((st.phase = "need_roll" ∨ st.phase = "complete") →
         st.current_team_id = none ∧ st.pending_slot = none) ∧
      (st.phase = "need_slot" → st.current_team_id ≠ none ∧ st.pending_slot = none) ∧
      (st.phase = "need_asset" → st.current_team_id ≠ none ∧ st.pending_slot ≠ none) := by
  obtain ⟨run, st, hrun, hst, _, _, _, h1, h2, h3⟩ := reach_inv h
  exact ⟨st, hst, h1, h2, h3⟩

/-- C6 witness: the invariant instantiated on the reachable database
`dbB` (created, then one successful roll). -/
theorem phase_determines_cursor_nullability_wit :
    ∃ st, dbB.state = some st ∧
      ((st.phase = "need_roll" ∨ st.phase = "complete") →
         st.current_team_id = none ∧ st.pending_slot = none) ∧
      (st.phase = "need_slot" → st.current_team_id ≠ none ∧ st.pending_slot = none) ∧
      (st.phase = "need_asset" → st.current_team_id ≠ none ∧ st.pending_slot ≠ none) :=
  phase_determines_cursor_nullability
    (Reach.step dbA dbB
      (Reach.created (some 7) 2025 teams0 coaches0 roster0 dbA rfl)
      (Step.roll (some 7) 0 dbA dbB
        { id := 1, abbr := "KC", name := "Kansas City Chiefs", logo_url := none } rfl))

/-- C8: with the run found and owned, `tr_clear_pending_slot` succeeds
exactly in phases `need_slot`/`need_asset` with a current team, setting
phase `need_slot` and clearing `pending_slot` while keeping the team; with
no current team or any other phase it fails with an `InvalidPhase` error. -/
theorem clear_pending_slot_spec (u : Nat) (rn : GameRun) (st : GameState) (db : Db)
    (hrun : db.run = some rn) (huser : rn.user_id = u) (hst : db.state = some st) :
    ((st.phase = "need_slot" ∨ st.phase = "need_asset") → st.current_team_id ≠ none →
       tr_clear_pending_slot (some u) db =
         .ok { db with state := some { st with phase := "need_slot", pending_slot := none } }) ∧
    (st.current_team_id = none ∨ (st.phase ≠ "need_slot" ∧ st.phase ≠ "need_asset") →
       ∃ e, tr_clear_pending_slot (some u) db = .error e ∧ errKind e = "InvalidPhase") := by
  constructor
  · intro hphase hcur
    unfold tr_clear_pending_slot
    rw [hrun, hst]
    simp [huser, hcur, hphase]
  · intro hfail
    unfold tr_clear_pending_slot
    rw [hrun, hst]
    by_cases hcur : st.current_team_id = none
    · exact ⟨.noCurrentTeam, by simp [huser, hcur], rfl⟩
    · rcases hfail with hfail | ⟨h1, h2⟩
      · exact absurd hfail hcur
      · refine ⟨.changeSlotNotAllowed, ?_, rfl⟩
        have : ¬ (st.phase = "need_slot" ∨ st.phase = "need_asset") := by
          rintro (hx | hx) <;> [exact h1 hx; exact h2 hx]
        simp [huser, hcur, this]

/-- C8 witness: clearing from `dbC` (phase `need_asset`, team 1 rolled,
slot QB pending) returns to `need_slot` keeping team 1; on `dbA` (phase
`need_roll`, no team) it fails with an `InvalidPhase`-kind error. -/
theorem clear_pending_slot_spec_wit :
    tr_clear_pending_slot (some 7) dbC =
        .ok { dbC with state := some { phase := "need_slot", current_team_id := some 1, pending_slot := none } } ∧
      ∃ e, tr_clear_pending_slot (some 7) dbA = .error e ∧ errKind e = "InvalidPhase" :=
  ⟨(clear_pending_slot_spec 7 { user_id := 7, season := 2025, status := "active" }
      { phase := "need_asset", current_team_id := some 1, pending_slot := some "QB" } dbC
      rfl rfl rfl).1 (by simp) (by simp),
   (clear_pending_slot_spec 7 { user_id := 7, season := 2025, status := "active" }
      { phase := "need_roll", current_team_id := none, pending_slot := none } dbA
      rfl rfl rfl).2 (by simp)⟩

/-- C2: a successful `tr_roll_team` returns a team of the reference table
not used by any pick of the run and moves the cursor to `need_slot` with
that team and no pending slot, changing nothing else; with the run found
and owned it fails with the `InvalidPhase`-kind error when the phase is
not `need_roll`, and with `NoTeamsRemaining` when every team is used. -/
theorem roll_team_selects_unused_team :
    (∀ uid r db db' t, tr_roll_team uid r db = .ok (db', t) →
       (∀ p ∈ db.picks, p.team_id ≠ t.id) ∧ t ∈ db.teams ∧
       db'.state = some { phase := "need_slot", current_team_id := some t.id, pending_slot := none } ∧
       db'.picks = db.picks ∧ db'.run = db.run) ∧
    (∀ u rn st r db, db.run = some rn → rn.user_id = u → db.state = some st →
       st.phase ≠ "need_roll" →
       tr_roll_team (some u) r db = .error .cannotRollNow ∧
         errKind .cannotRollNow = "InvalidPhase") ∧
    (∀ u rn st r db, db.run = some rn → rn.user_id = u → db.state = some st →
       st.phase = "need_roll" → (∀ t ∈ db.teams, teamUsed db t.id = true) →
       tr_roll_team (some u) r db = .error .noTeamsRemaining ∧
         errKind .noTeamsRemaining = "NoTeamsRemaining") := by
  refine ⟨?_, ?_, ?_⟩
  · intro uid r db db' t h
    obtain ⟨u, rn, st, _, _, _, _, _, hmem, hunused, hdb'⟩ := tr_roll_team_ok h
    subst hdb'
    refine ⟨?_, hmem, rfl, rfl, rfl⟩
    intro p hp he
    have : db.picks.any (fun q => q.team_id == t.id) = true :=
      List.any_eq_true.mpr ⟨p, hp, by simp [he]⟩
    rw [teamUsed] at hunused
    rw [this] at hunused
    cases hunused
  · intro u rn st r db hrun huser hst hphase
    refine ⟨?_, rfl⟩
    unfold tr_roll_team
    rw [hrun, hst]
    simp [huser, hphase]
  · intro u rn st r db hrun huser hst hphase hall
    refine ⟨?_, rfl⟩
    unfold tr_roll_team
    rw [hrun, hst]
    have hnil : db.teams.filter (fun t => ! teamUsed db t.id) = [] :=
      List.filter_eq_nil_iff.mpr fun t ht => by simp [hall t ht]
    simp [huser, hphase, hnil]

/-- C2 witness: rolling on `dbA` yields unused team 1 and `dbB`; rolling
on `dbB` (phase `need_slot`) is `InvalidPhase`; rolling on `dbAllUsed`
(both teams already picked) is `NoTeamsRemaining`. -/
theorem roll_team_selects_unused_team_wit :
    ((∀ p ∈ dbA.picks, p.team_id ≠ 1) ∧
       ({ id := 1, abbr := "KC", name := "Kansas City Chiefs", logo_url := none } : TeamRow) ∈ dbA.teams ∧
       dbB.state = some { phase := "need_slot", current_team_id := some 1, pending_slot := none } ∧
       dbB.picks = dbA.picks ∧ dbB.run = dbA.run) ∧
      (tr_roll_team (some 7) 0 dbB = .error .cannotRollNow ∧
        errKind .cannotRollNow = "InvalidPhase") ∧
      (tr_roll_team (some 7) 0 dbAllUsed = .error .noTeamsRemaining ∧
        errKind .noTeamsRemaining = "NoTeamsRemaining") :=
  ⟨roll_team_selects_unused_team.1 (some 7) 0 dbA dbB
      { id := 1, abbr := "KC", name := "Kansas City Chiefs", logo_url := none } rfl,
   roll_team_selects_unused_team.2.1 7 { user_id := 7, season := 2025, status := "active" }
      { phase := "need_slot", current_team_id := some 1, pending_slot := none } 0 dbB
      rfl rfl rfl (by decide),
   roll_team_selects_unused_team.2.2 7 { user_id := 7, season := 2025, status := "active" }
      { phase := "need_roll", current_team_id := none, pending_slot := none } 0 dbAllUsed
      rfl rfl rfl rfl (by decide)⟩


/-- C7: with the run found and owned and the state row present,
`tr_choose_slot` on a vocabulary slot succeeds — writing phase
`need_asset` and the pending slot — exactly when the phase is `need_slot`,
a current team is set, and the slot carries no pick; it fails with
`InvalidSlot` outside the vocabulary, with the `InvalidPhase`-kind error
when the phase is wrong, and with the `SlotAlreadyFilled`-kind error when
the slot is taken. -/
theorem choose_slot_spec (u : Nat) (rn : GameRun) (st : GameState) (s : String) (db : Db)
    (hrun : db.run = some rn) (huser : rn.user_id = u) (hst : db.state = some st) :
    (s ∈ slotVocab →
       (tr_choose_slot (some u) s db =
           .ok { db with state := some { st with phase := "need_asset", pending_slot := some s } } ↔
         st.phase = "need_slot" ∧ st.current_team_id ≠ none ∧ slotFilled db s = false)) ∧
    (s ∉ slotVocab → tr_choose_slot (some u) s db = .error .invalidSlot ∧
       errKind .invalidSlot = "InvalidSlot") ∧
    (s ∈ slotVocab → st.phase ≠ "need_slot" →
       tr_choose_slot (some u) s db = .error .slotChoiceNotAllowed ∧
         errKind .slotChoiceNotAllowed = "InvalidPhase") ∧
    (s ∈ slotVocab → st.phase = "need_slot" → st.current_team_id ≠ none →
       slotFilled db s = true →
       tr_choose_slot (some u) s db = .error .slotAlreadyFilled ∧
         errKind .slotAlreadyFilled = "SlotAlreadyFilled") := by
  refine ⟨?_, ?_, ?_, ?_⟩
  · intro hs
    constructor
    · intro hok
      obtain ⟨u1, rn1, st1, _, _, _, hst1, _, hphase, hcur, hfill, _⟩ := tr_choose_slot_ok hok
      rw [hst] at hst1
      cases hst1
      exact ⟨hphase, hcur, hfill⟩
    · rintro ⟨hphase, hcur, hfill⟩
      unfold tr_choose_slot
      rw [hrun, hst]
      simp [hs, huser, hphase, hcur, hfill]
  · intro hs
    refine ⟨?_, rfl⟩
    unfold tr_choose_slot
    simp [hs]
  · intro hs hphase
    refine ⟨?_, rfl⟩
    unfold tr_choose_slot
    rw [hrun, hst]
    simp [hs, huser, hphase]
  · intro hs hphase hcur hfill
    refine ⟨?_, rfl⟩
    unfold tr_choose_slot
    rw [hrun, hst]
    simp [hs, huser, hphase, hcur, hfill]

/-- C7 witness: on `dbB` choosing QB succeeds into `need_asset`; an
unknown name gives `InvalidSlot`; on `dbC` (phase `need_asset`) choosing
RB1 gives the `InvalidPhase`-kind error; on `dbE` choosing the filled QB
slot gives the `SlotAlreadyFilled`-kind error. -/
theorem choose_slot_spec_wit :
    tr_choose_slot (some 7) "QB" dbB =
        .ok { dbB with state := some { phase := "need_asset", current_team_id := some 1, pending_slot := some "QB" } } ∧
      (tr_choose_slot (some 7) "ZZ" dbB = .error .invalidSlot ∧
        errKind .invalidSlot = "InvalidSlot") ∧
      (tr_choose_slot (some 7) "RB1" dbC = .error .slotChoiceNotAllowed ∧
        errKind .slotChoiceNotAllowed = "InvalidPhase") ∧
      (tr_choose_slot (some 7) "QB" dbE = .error .slotAlreadyFilled ∧
        errKind .slotAlreadyFilled = "SlotAlreadyFilled") :=
  ⟨((choose_slot_spec 7 { user_id := 7, season := 2025, status := "active" }
        { phase := "need_slot", current_team_id := some 1, pending_slot := none } "QB" dbB
        rfl rfl rfl).1 (by decide)).mpr ⟨rfl, by simp, rfl⟩,
   (choose_slot_spec 7 { user_id := 7, season := 2025, status := "active" }
        { phase := "need_slot", current_team_id := some 1, pending_slot := none } "ZZ" dbB
        rfl rfl rfl).2.1 (by decide),
   (choose_slot_spec 7 { user_id := 7, season := 2025, status := "active" }
        { phase := "need_asset", current_team_id := some 1, pending_slot := some "QB" } "RB1" dbC
        rfl rfl rfl).2.2.1 (by decide) (by decide),
   (choose_slot_spec 7 { user_id := 7, season := 2025, status := "active" }
        { phase := "need_slot", current_team_id := some 2, pending_slot := none } "QB" dbE
        rfl rfl rfl).2.2.2 (by decide) rfl (by simp) (by decide)⟩

/-- C9: with the run found and owned, phase `need_asset`, pending slot
DST, slot free, team unused and the team row present, `tr_pick_asset`
succeeds — inserting a pick with neither player nor coach reference —
exactly when the asset type is the defense type `dst` and no reference id
is supplied; any call with a non-null reference id fails. -/
theorem pick_asset_dst_spec (u : Nat) (rn : GameRun) (current : Nat) (tm : TeamRow) (db : Db)
    (hrun : db.run = some rn) (huser : rn.user_id = u)
    (hst : db.state = some { phase := "need_asset", current_team_id := some current, pending_slot := some "DST" })
    (hfill : slotFilled db "DST" = false) (hused : teamUsed db current = false)
    (htm : db.teams.find? (fun t => t.id == current) = some tm) :
    (∀ ty aid, tr_pick_asset (some u) ty aid db =
        .ok (pickEpilogue db { slot := "DST", team_id := current, asset_type := "dst", player_id := none, coach_id := none }) ↔
      ty = "dst" ∧ aid = none) ∧
    (∀ ty aid, aid ≠ none → tr_pick_asset (some u) ty aid db = .error .dstRequiresNoId) := by
  constructor
  · intro ty aid
    have heval := tr_pick_asset_eval u rn "DST" current tm db ty aid
      hrun huser hst hfill hused htm
    rw [if_pos rfl] at heval
    constructor
    · intro hok
      by_cases hcond : ty ≠ "dst" ∨ aid ≠ none
      · rw [if_pos hcond] at heval
        rw [heval] at hok
        cases hok
      · push_neg at hcond
        exact ⟨hcond.1, hcond.2⟩
    · rintro ⟨rfl, rfl⟩
      rw [if_neg (by simp)] at heval
      exact heval
  · intro ty aid haid
    have heval := tr_pick_asset_eval u rn "DST" current tm db ty aid
      hrun huser hst hfill hused htm
    rw [if_pos rfl, if_pos (Or.inr haid)] at heval
    exact heval


/-- C9 witness: on `dbDST`, (`dst`, no id) succeeds with a reference-free
pick, and (`dst`, id 5) fails. -/
theorem pick_asset_dst_spec_wit :
    tr_pick_asset (some 7) "dst" none dbDST =
        .ok (pickEpilogue dbDST { slot := "DST", team_id := 1, asset_type := "dst", player_id := none, coach_id := none }) ∧
      tr_pick_asset (some 7) "dst" (some 5) dbDST = .error .dstRequiresNoId :=
  ⟨((pick_asset_dst_spec 7 { user_id := 7, season := 2025, status := "active" } 1
        { id := 1, abbr := "KC", name := "Kansas City Chiefs", logo_url := none } dbDST
        rfl rfl rfl (by decide) (by decide) (by decide)).1 "dst" none).mpr ⟨rfl, rfl⟩,
   (pick_asset_dst_spec 7 { user_id := 7, season := 2025, status := "active" } 1
        { id := 1, abbr := "KC", name := "Kansas City Chiefs", logo_url := none } dbDST
        rfl rfl rfl (by decide) (by decide) (by decide)).2 "dst" (some 5) (by simp)⟩

/-- C3 (code bug): with the run found and owned, phase `need_asset`,
pending slot COACH, slot free, team unused, the team row present, and a
coach of the current team existing, every `tr_pick_asset` call with asset
type `coach` and a reference id hits the `p_asset_id::uuid` cast —
Postgres has no bigint→uuid cast — and raises; no coach pick can ever
succeed, where the spec demands success for a coach of the current team.
(`p_asset_id` is declared bigint, so a coach uuid is not even passable.) -/
theorem pick_asset_coach_always_cast_error (u : Nat) (rn : GameRun) (current : Nat)
    (tm : TeamRow) (db : Db) (cid : Int)
    (hrun : db.run = some rn) (huser : rn.user_id = u)
    (hst : db.state = some { phase := "need_asset", current_team_id := some current, pending_slot := some "COACH" })
    (hfill : slotFilled db "COACH" = false) (hused : teamUsed db current = false)
    (htm : db.teams.find? (fun t => t.id == current) = some tm)
    (_hcoach : ∃ c ∈ db.coaches, c.team_id = current) :
    tr_pick_asset (some u) "coach" (some cid) db = .error .castBigintToUuid ∧
      ∀ db', tr_pick_asset (some u) "coach" (some cid) db ≠ .ok db' := by
  have heval := tr_pick_asset_eval u rn "COACH" current tm db "coach" (some cid)
    hrun huser hst hfill hused htm
  rw [if_neg (by simp), if_pos rfl, if_neg (by simp)] at heval
  exact ⟨heval, fun db' hok => by rw [heval] at hok; cases hok⟩


/-- C3 witness: on `dbCoach`, team 1 does have a coach (id 21), yet the
coach pick errors on the cast and cannot succeed. -/
theorem pick_asset_coach_always_cast_error_wit :
    tr_pick_asset (some 7) "coach" (some 21) dbCoach = .error .castBigintToUuid ∧
      ∀ db', tr_pick_asset (some 7) "coach" (some 21) dbCoach ≠ .ok db' :=
  pick_asset_coach_always_cast_error 7 { user_id := 7, season := 2025, status := "active" } 1
    { id := 1, abbr := "KC", name := "Kansas City Chiefs", logo_url := none } dbCoach 21
    rfl rfl rfl (by decide) (by decide) (by decide)
    ⟨{ id := 21, team_id := 1, full_name := "Head Coach KC" }, by decide, rfl⟩

/-- The source's position-mismatch chain, over the six player slots, is
exactly "position differs from the slot's requirement with the ordinal
suffix stripped". -/
theorem mismatch_chain (slot pos : String) (hslot : slot ∈ playerSlots) :
    (((slot = "RB1" ∨ slot = "RB2") ∧ pos ≠ "RB") ∨
     ((slot = "WR1" ∨ slot = "WR2") ∧ pos ≠ "WR") ∨
     (slot = "QB" ∧ pos ≠ "QB") ∨ (slot = "TE" ∧ pos ≠ "TE")) ↔
      pos ≠ slotRequiredPos slot := by
  simp only [playerSlots] at hslot
  fin_cases hslot <;> simp [slotRequiredPos]

/-- C4: with the run found and owned, phase `need_asset`, a player slot
pending, slot free, team unused, the team row present and roster ids
unique (the primary key), `tr_pick_asset` succeeds exactly when the asset
type is `player` with a reference id whose roster row belongs to the
current team's abbreviation for the run's season and whose position is
the slot's requirement with ordinal suffixes stripped; a wrong team or
season fails with the `AssetTeamMismatch` kind and a wrong position with
the `AssetPositionMismatch` kind. -/
theorem pick_asset_player_validation (u : Nat) (rn : GameRun) (slot : String)
    (current : Nat) (tm : TeamRow) (db : Db)
    (hslot : slot ∈ playerSlots)
    (hrun : db.run = some rn) (huser : rn.user_id = u)
    (hst : db.state = some { phase := "need_asset", current_team_id := some current, pending_slot := some slot })
    (hfill : slotFilled db slot = false) (hused : teamUsed db current = false)
    (htm : db.teams.find? (fun t => t.id == current) = some tm)
    (hnodup : (db.roster.map (·.id)).Nodup) :
    (∀ ty aid, (∃ db', tr_pick_asset (some u) ty aid db = .ok db') ↔
       (ty = "player" ∧ ∃ pid row, aid = some pid ∧ row ∈ db.roster ∧ row.id = pid ∧
          row.team = tm.abbr ∧ row.season = rn.season ∧
          row.position = slotRequiredPos slot)) ∧
    (∀ pid, (∀ row ∈ db.roster, ¬(row.id = pid ∧ row.team = tm.abbr ∧ row.season = rn.season)) →
       tr_pick_asset (some u) "player" (some pid) db = .error .assetTeamMismatchPlayer ∧
         errKind .assetTeamMismatchPlayer = "AssetTeamMismatch") ∧
    (∀ pid row, row ∈ db.roster → row.id = pid → row.team = tm.abbr →
       row.season = rn.season → row.position ≠ slotRequiredPos slot →
       ∃ e, tr_pick_asset (some u) "player" (some pid) db = .error e ∧
         errKind e = "AssetPositionMismatch") := by
  have hnD : slot ≠ "DST" := by
    simp only [playerSlots] at hslot
    fin_cases hslot <;> decide
  have hnC : slot ≠ "COACH" := by
    simp only [playerSlots] at hslot
    fin_cases hslot <;> decide
  refine ⟨?_, ?_, ?_⟩
  · intro ty aid
    have heval := tr_pick_asset_eval u rn slot current tm db ty aid
      hrun huser hst hfill hused htm
    rw [if_neg hnD, if_neg hnC] at heval
    constructor
    · rintro ⟨db', hok⟩
      by_cases hcond : ty ≠ "player" ∨ aid = none
      · rw [if_pos hcond] at heval
        rw [heval] at hok
        cases hok
      · push_neg at hcond
        obtain ⟨hty, haid⟩ := hcond
        obtain ⟨pid, rfl⟩ := Option.ne_none_iff_exists'.mp haid
        rw [if_neg (by simp [hty])] at heval
        simp only [] at heval
        refine ⟨hty, pid, ?_⟩
        cases hfind : db.roster.find? fun rr =>
            rr.id == pid && rr.team == tm.abbr && rr.season == rn.season with
        | none =>
            simp only [hfind, Option.map_none'] at heval
            rw [heval] at hok
            cases hok
        | some row =>
            simp only [hfind, Option.map_some'] at heval
            have hpred := List.find?_some hfind
            simp only [Bool.and_eq_true, beq_iff_eq] at hpred
            refine ⟨row, rfl, List.mem_of_find?_eq_some hfind, hpred.1.1,
              hpred.1.2, hpred.2, ?_⟩
            by_contra hne
            have hchain := (mismatch_chain slot row.position hslot).mpr hne
            split at heval
            next => rw [heval] at hok; cases hok
            next hn1 =>
              split at heval
              next => rw [heval] at hok; cases hok
              next hn2 =>
                split at heval
                next => rw [heval] at hok; cases hok
                next hn3 =>
                  split at heval
                  next => rw [heval] at hok; cases hok
                  next hn4 =>
                    rcases hchain with hc | hc | hc | hc
                    · exact hn1 hc
                    · exact hn2 hc
                    · exact hn3 hc
                    · exact hn4 hc
    · rintro ⟨rfl, pid, row, rfl, hmem, hid, hteam, hseason, hpos⟩
      rw [if_neg (by simp)] at heval
      simp only [] at heval
      simp only [roster_find?_eq hnodup hmem hid hteam hseason, Option.map_some'] at heval
      have hnd : ¬ (((slot = "RB1" ∨ slot = "RB2") ∧ row.position ≠ "RB") ∨
          ((slot = "WR1" ∨ slot = "WR2") ∧ row.position ≠ "WR") ∨
          (slot = "QB" ∧ row.position ≠ "QB") ∨ (slot = "TE" ∧ row.position ≠ "TE")) :=
        fun hd => absurd ((mismatch_chain slot row.position hslot).mp hd)
          (by rw [hpos]; simp)
      rw [if_neg (fun hc => hnd (Or.inl hc)),
          if_neg (fun hc => hnd (Or.inr (Or.inl hc))),
          if_neg (fun hc => hnd (Or.inr (Or.inr (Or.inl hc)))),
          if_neg (fun hc => hnd (Or.inr (Or.inr (Or.inr hc))))] at heval
      exact ⟨_, heval⟩
  · intro pid hnone
    have heval := tr_pick_asset_eval u rn slot current tm db "player" (some pid)
      hrun huser hst hfill hused htm
    rw [if_neg hnD, if_neg hnC, if_neg (by simp)] at heval
    simp only [] at heval
    have hfindnone : (db.roster.find? fun rr =>
        rr.id == pid && rr.team == tm.abbr && rr.season == rn.season) = none := by
      refine List.find?_eq_none.mpr fun row hrow => ?_
      intro hx
      simp only [Bool.and_eq_true, beq_iff_eq] at hx
      exact hnone row hrow ⟨hx.1.1, hx.1.2, hx.2⟩
    simp only [hfindnone, Option.map_none'] at heval
    exact ⟨heval, rfl⟩
  · intro pid row hmem hid hteam hseason hne
    have heval := tr_pick_asset_eval u rn slot current tm db "player" (some pid)
      hrun huser hst hfill hused htm
    rw [if_neg hnD, if_neg hnC, if_neg (by simp)] at heval
    simp only [] at heval
    simp only [roster_find?_eq hnodup hmem hid hteam hseason, Option.map_some'] at heval
    have hchain := (mismatch_chain slot row.position hslot).mpr hne
    split at heval
    next => exact ⟨_, heval, rfl⟩
    next hn1 =>
      split at heval
      next => exact ⟨_, heval, rfl⟩
      next hn2 =>
        split at heval
        next => exact ⟨_, heval, rfl⟩
        next hn3 =>
          split at heval
          next => exact ⟨_, heval, rfl⟩
          next hn4 =>
            exfalso
            rcases hchain with hc | hc | hc | hc
            · exact hn1 hc
            · exact hn2 hc
            · exact hn3 hc
            · exact hn4 hc

/-- C4 witness: on `dbC` (pending slot QB, team 1 = KC), picking KC's QB
(player 10) succeeds; picking a BUF player (id 12) is an
`AssetTeamMismatch`; picking KC's WR (id 11) for QB is an
`AssetPositionMismatch`. -/
theorem pick_asset_player_validation_wit :
    (∃ db', tr_pick_asset (some 7) "player" (some 10) dbC = .ok db') ∧
      (tr_pick_asset (some 7) "player" (some 12) dbC = .error .assetTeamMismatchPlayer ∧
        errKind .assetTeamMismatchPlayer = "AssetTeamMismatch") ∧
      ∃ e, tr_pick_asset (some 7) "player" (some 11) dbC = .error e ∧
        errKind e = "AssetPositionMismatch" :=
  ⟨((pick_asset_player_validation 7 { user_id := 7, season := 2025, status := "active" } "QB" 1
        { id := 1, abbr := "KC", name := "Kansas City Chiefs", logo_url := none } dbC
        (by decide) rfl rfl rfl (by decide) (by decide) (by decide) (by decide)).1
      "player" (some 10)).mpr
      ⟨rfl, 10, { id := 10, season := 2025, team := "KC", position := "QB" },
        rfl, by decide, rfl, rfl, rfl, by decide⟩,
   (pick_asset_player_validation 7 { user_id := 7, season := 2025, status := "active" } "QB" 1
        { id := 1, abbr := "KC", name := "Kansas City Chiefs", logo_url := none } dbC
        (by decide) rfl rfl rfl (by decide) (by decide) (by decide) (by decide)).2.1
      12 (by decide),
   (pick_asset_player_validation 7 { user_id := 7, season := 2025, status := "active" } "QB" 1
        { id := 1, abbr := "KC", name := "Kansas City Chiefs", logo_url := none } dbC
        (by decide) rfl rfl rfl (by decide) (by decide) (by decide) (by decide)).2.2
      11 { id := 11, season := 2025, team := "KC", position := "WR" }
      (by decide) rfl rfl rfl (by decide)⟩

/-- C5: a failing engine call leaves the run's database untouched — every
`raise exception` aborts the whole transaction, which `resultDb` makes
explicit — and in particular an RB1 pick of a WR player fails with the
`AssetPositionMismatch` kind leaving the phase at `need_asset`, and
choosing an already-filled slot fails with the `SlotAlreadyFilled` kind
leaving the state row unchanged. -/
theorem engine_failures_mutate_nothing :
    (∀ uid r db e, tr_roll_team uid r db = .error e →
       resultDb ((tr_roll_team uid r db).map Prod.fst) db = db) ∧
    (∀ uid s db e, tr_choose_slot uid s db = .error e →
       resultDb (tr_choose_slot uid s db) db = db) ∧
    (∀ uid db e, tr_clear_pending_slot uid db = .error e →
       resultDb (tr_clear_pending_slot uid db) db = db) ∧
    (∀ uid ty aid db e, tr_pick_asset uid ty aid db = .error e →
       resultDb (tr_pick_asset uid ty aid db) db = db) ∧
    (∀ u rn current pid row tm db,
       db.run = some rn → rn.user_id = u →
       db.state = some { phase := "need_asset", current_team_id := some current, pending_slot := some "RB1" } →
       slotFilled db "RB1" = false → teamUsed db current = false →
       db.teams.find? (fun t => t.id == current) = some tm →
       (db.roster.map (·.id)).Nodup →
       row ∈ db.roster → row.id = pid → row.team = tm.abbr → row.season = rn.season →
       row.position = "WR" →
       tr_pick_asset (some u) "player" (some pid) db = .error .positionMismatchRB ∧
         errKind .positionMismatchRB = "AssetPositionMismatch" ∧
         (resultDb (tr_pick_asset (some u) "player" (some pid) db) db).state =
           some { phase := "need_asset", current_team_id := some current, pending_slot := some "RB1" }) ∧
    (∀ u rn st s db, db.run = some rn → rn.user_id = u → db.state = some st →
       st.phase = "need_slot" → st.current_team_id ≠ none → slotFilled db s = true →
       s ∈ slotVocab →
       tr_choose_slot (some u) s db = .error .slotAlreadyFilled ∧
         errKind .slotAlreadyFilled = "SlotAlreadyFilled" ∧
         (resultDb (tr_choose_slot (some u) s db) db).state = some st) := by
  refine ⟨?_, ?_, ?_, ?_, ?_, ?_⟩
  · intro uid r db e h
    simp [resultDb, h, Except.map]
  · intro uid s db e h
    simp [resultDb, h]
  · intro uid db e h
    simp [resultDb, h]
  · intro uid ty aid db e h
    simp [resultDb, h]
  · intro u rn current pid row tm db hrun huser hst hfill hused htm hnodup
      hmem hid hteam hseason hpos
    have heval := tr_pick_asset_eval u rn "RB1" current tm db "player" (some pid)
      hrun huser hst hfill hused htm
    rw [if_neg (by decide), if_neg (by decide), if_neg (by simp)] at heval
    simp only [] at heval
    simp only [roster_find?_eq hnodup hmem hid hteam hseason, Option.map_some',
      hpos] at heval
    rw [if_pos (by simp)] at heval
    refine ⟨heval, rfl, ?_⟩
    rw [heval]
    exact hst
  · intro u rn st s db hrun huser hst hphase hcur hfill hs
    have hchoose : tr_choose_slot (some u) s db = .error .slotAlreadyFilled := by
      unfold tr_choose_slot
      rw [hrun, hst]
      simp [hs, huser, hphase, hcur, hfill]
    refine ⟨hchoose, rfl, ?_⟩
    rw [hchoose]
    exact hst


/-- C5 witness: on a run with pending slot RB1 and team 1, picking KC's
WR (player 11) fails with `AssetPositionMismatch` and the phase stays
`need_asset`; on `dbE`, choosing the filled slot QB fails with
`SlotAlreadyFilled` and the state row is unchanged. -/
theorem engine_failures_mutate_nothing_wit :
    (tr_pick_asset (some 7) "player" (some 11) dbRB1 = .error .positionMismatchRB ∧
       errKind .positionMismatchRB = "AssetPositionMismatch" ∧
       (resultDb (tr_pick_asset (some 7) "player" (some 11) dbRB1) dbRB1).state =
         some { phase := "need_asset", current_team_id := some 1, pending_slot := some "RB1" }) ∧
      (tr_choose_slot (some 7) "QB" dbE = .error .slotAlreadyFilled ∧
        errKind .slotAlreadyFilled = "SlotAlreadyFilled" ∧
        (resultDb (tr_choose_slot (some 7) "QB" dbE) dbE).state =
          some { phase := "need_slot", current_team_id := some 2, pending_slot := none }) :=
  ⟨engine_failures_mutate_nothing.2.2.2.2.1 7
      { user_id := 7, season := 2025, status := "active" } 1 11
      { id := 11, season := 2025, team := "KC", position := "WR" }
      { id := 1, abbr := "KC", name := "Kansas City Chiefs", logo_url := none } dbRB1
      rfl rfl rfl (by decide) (by decide) (by decide) (by decide) (by decide)
      rfl rfl rfl rfl,
   engine_failures_mutate_nothing.2.2.2.2.2 7
      { user_id := 7, season := 2025, status := "active" }
      { phase := "need_slot", current_team_id := some 2, pending_slot := none } "QB" dbE
      rfl rfl rfl rfl (by simp) (by decide) (by decide)⟩

/-- C1: on a reachable database a successful `tr_pick_asset` appends
exactly one pick row, bound to the pending slot and the current team; a
count of 8 seals the run (status `complete`, phase `complete`, cursor
cleared) and a smaller count resets the cursor to `need_roll`; and on
every reachable database, phase `complete`, pick count 8 and run status
`complete` coincide. -/
theorem pick_asset_counts_and_completes :
    (∀ uid ty aid db db', Reach db → tr_pick_asset uid ty aid db = .ok db' →
       ∃ run st p, db.run = some run ∧ db.state = some st ∧
         st.pending_slot = some p.slot ∧ st.current_team_id = some p.team_id ∧
         db'.picks = db.picks ++ [p] ∧ db'.picks.length = db.picks.length + 1 ∧
         (db'.picks.length = 8 →
            db'.run = some { run with status := "complete" } ∧
            db'.state = some { phase := "complete", current_team_id := none, pending_slot := none }) ∧
         (db'.picks.length ≠ 8 →
            db'.run = some run ∧
            db'.state = some { phase := "need_roll", current_team_id := none, pending_slot := none })) ∧
    (∀ db, Reach db →
       (((∃ st, db.state = some st ∧ st.phase = "complete") ↔ db.picks.length = 8) ∧
        ((∃ run, db.run = some run ∧ run.status = "complete") ↔ db.picks.length = 8))) := by
  constructor
  · intro uid ty aid db db' hreach hok
    obtain ⟨run, st, hrun, hst, hlen, hph, hstat, _, _, _⟩ := reach_inv hreach
    obtain ⟨u, run1, st1, pending, current, _, hrun1, _, hst1, hphase, hpend, hcur,
      _, _, p, hps, hpt, hdb'⟩ := tr_pick_asset_ok hok
    rw [hrun] at hrun1
    rw [hst] at hst1
    cases hrun1
    cases hst1
    have hne : db.picks.length ≠ 8 := fun hc => by
      have := hph.mpr hc
      rw [this] at hphase
      exact absurd hphase (by decide)
    have hle7 : db.picks.length ≤ 7 := by omega
    have hpicks' : db'.picks = db.picks ++ [p] := by
      rw [hdb']; exact pickEpilogue_picks db p
    have hlen' : db'.picks.length = db.picks.length + 1 := by
      rw [hpicks']; simp
    refine ⟨run, st, p, hrun, hst, ?_, ?_, hpicks', hlen', ?_, ?_⟩
    · rw [hpend, hps]
    · rw [hcur, hpt]
    · intro h8
      have hge : db.picks.length + 1 ≥ 8 := by omega
      obtain ⟨hr, hs⟩ := pickEpilogue_complete db p hge
      rw [hdb']
      rw [hr, hs, hrun, hst]
      exact ⟨rfl, rfl⟩
    · intro hne8
      have hlt : db.picks.length + 1 < 8 := by omega
      obtain ⟨hr, hs⟩ := pickEpilogue_cycle db p hlt
      rw [hdb']
      rw [hr, hs, hrun, hst]
      exact ⟨rfl, rfl⟩
  · intro db hreach
    obtain ⟨run, st, hrun, hst, _, hph, hstat, _, _, _⟩ := reach_inv hreach
    constructor
    · constructor
      · rintro ⟨st', hst', hc⟩
        rw [hst] at hst'
        cases hst'
        exact hph.mp hc
      · intro h8
        exact ⟨st, hst, hph.mpr h8⟩
    · constructor
      · rintro ⟨run', hrun', hc⟩
        rw [hrun] at hrun'
        cases hrun'
        exact hstat.mp hc
      · intro h8
        exact ⟨run, hrun, hstat.mpr h8⟩

/-- C1 witness: on the reachable `dbC`, picking KC's QB yields `dbD` with
one more pick and phase back at `need_roll` (count 1 below 8); on the
reachable `dbA` both completion equivalences hold with both sides false. -/
theorem pick_asset_counts_and_completes_wit :
    (∃ run st p, dbC.run = some run ∧ dbC.state = some st ∧
       st.pending_slot = some p.slot ∧ st.current_team_id = some p.team_id ∧
       dbD.picks = dbC.picks ++ [p] ∧ dbD.picks.length = dbC.picks.length + 1 ∧
       (dbD.picks.length = 8 →
          dbD.run = some { run with status := "complete" } ∧
          dbD.state = some { phase := "complete", current_team_id := none, pending_slot := none }) ∧
       (dbD.picks.length ≠ 8 →
          dbD.run = some run ∧
          dbD.state = some { phase := "need_roll", current_team_id := none, pending_slot := none })) ∧
      (((∃ st, dbA.state = some st ∧ st.phase = "complete") ↔ dbA.picks.length = 8) ∧
       ((∃ run, dbA.run = some run ∧ run.status = "complete") ↔ dbA.picks.length = 8)) :=
  ⟨pick_asset_counts_and_completes.1 (some 7) "player" (some 10) dbC dbD
      (Reach.step dbB dbC
        (Reach.step dbA dbB
          (Reach.created (some 7) 2025 teams0 coaches0 roster0 dbA rfl)
          (Step.roll (some 7) 0 dbA dbB
            { id := 1, abbr := "KC", name := "Kansas City Chiefs", logo_url := none } rfl))
        (Step.choose (some 7) "QB" dbB dbC rfl))
      rfl,
   pick_asset_counts_and_completes.2 dbA
      (Reach.created (some 7) 2025 teams0 coaches0 roster0 dbA rfl)⟩

end TeamRollDraft
